import Mathlib

/-!
Shallow embedding of the clinbox email-triage tool (Rust) and proofs about it.

Source files embedded here: `src/gmail.rs` (token lifecycle, MIME body
extraction, date parsing, reply construction), `src/email.rs` (`Email` entity
and `body_text`), `src/ai.rs` (`truncate`), `src/config.rs` (account
management) and `src/main.rs` (`run_interactive` triage loop, `Stats`).

Modelling conventions:
- Rust `String`/`&str` become Lean `String`; Rust byte-level operations
  (UTF-8 slicing, base64 decoding) are modelled explicitly on byte lists
  (`List Nat`, each entry < 256).
- `chrono` timestamps become `Int` seconds since the Unix epoch; `Utc::now()`
  becomes an explicit `now : Int` parameter.
- Fallible Rust code (`Result`) becomes `Except` / `Option`; a Rust panic is
  modelled as `Option.none`.
- I/O and network effects are modelled by passing their outcomes in as
  explicit script parameters and recording the calls made in a trace.
-/

namespace Clinbox

/-! ## String helpers

Rust's `str::starts_with(pat)` tests whether the UTF-8 bytes of `pat` are a
prefix of the bytes of `self`.  For a valid UTF-8 pattern this is equivalent
to the character sequence of `pat` being a prefix of the character sequence
of `self` (UTF-8 boundaries are determined by the prefix), which is how we
model it. -/

def rsStartsWith (s pat : String) : Bool :=
  pat.toList.isPrefixOf s.toList

/-! ## `GmailClient::send_reply` — subject computation (gmail.rs lines 456-462)

```rust
let subject = if original.subject.starts_with("Re:") || original.subject.starts_with("RE:")
{
    original.subject.clone()
} else {
    format!("Re: {}", original.subject)
};
```
-/

namespace GmailClient

def send_reply_subject (subject : String) : String :=
  if rsStartsWith subject "Re:" || rsStartsWith subject "RE:" then subject
  else "Re: " ++ subject

end GmailClient

/-- Lists of characters of an appended string. -/
theorem toList_append (a b : String) : (a ++ b).toList = a.toList ++ b.toList := by
  simp [String.toList, String.data_append]

theorem rsStartsWith_Re_append (s : String) :
    rsStartsWith ("Re: " ++ s) "Re:" = true := by
  simp only [rsStartsWith, toList_append]
  show List.isPrefixOf ['R', 'e', ':'] (['R', 'e', ':', ' '] ++ s.toList) = true
  simp [List.isPrefixOf]

theorem Re_append_ne (s : String) : "Re: " ++ s ≠ s := by
  intro h
  have hlen : ("Re: " ++ s).length = s.length := by rw [h]
  rw [String.length_append] at hlen
  have h4 : ("Re: " : String).length = 4 := rfl
  omega

/-- C5 counterexample: the claim says a subject beginning `"re:"` (lower case)
is left unchanged, because the `Re:` check is case-insensitive.  The code only
checks the exact spellings `"Re:"` and `"RE:"`, so `"re: hello"` acquires a
second prefix. -/
theorem send_reply_subject_lowercase_re_changed :
    GmailClient.send_reply_subject "re: hello" = "Re: re: hello" ∧
      GmailClient.send_reply_subject "re: hello" ≠ "re: hello" := by
  constructor
  · rfl
  · decide

/-- C5 (amended): `send_reply` leaves the subject unchanged if and only if it
already starts with the exact spelling `"Re:"` or `"RE:"`; in every other case
(including lower-case `"re:"`) it prepends `"Re: "`. -/
theorem send_reply_subject_unchanged_iff (s : String) :
    (GmailClient.send_reply_subject s = s ↔
      (rsStartsWith s "Re:" = true ∨ rsStartsWith s "RE:" = true)) ∧
      (rsStartsWith s "Re:" = false → rsStartsWith s "RE:" = false →
        GmailClient.send_reply_subject s = "Re: " ++ s) := by
  constructor
  · constructor
    · intro h
      by_contra hor
      push_neg at hor
      obtain ⟨h1, h2⟩ := hor
      simp only [GmailClient.send_reply_subject, Bool.not_eq_true] at h
      rw [if_neg] at h
      · exact Re_append_ne s h
      · simp only [Bool.or_eq_true, not_or]
        exact ⟨h1, h2⟩
    · intro h
      simp only [GmailClient.send_reply_subject]
      rw [if_pos]
      simp only [Bool.or_eq_true]
      exact h
  · intro h1 h2
    simp [GmailClient.send_reply_subject, h1, h2]

/-- Witness for `send_reply_subject_unchanged_iff`: an exact `"Re:"` subject
is kept, an unprefixed subject is prefixed. -/
theorem send_reply_subject_unchanged_iff_witness :
    GmailClient.send_reply_subject "Re: status" = "Re: status" ∧
      GmailClient.send_reply_subject "hello" = "Re: hello" :=
  ⟨(send_reply_subject_unchanged_iff "Re: status").1.mpr (Or.inl (by decide)),
    (send_reply_subject_unchanged_iff "hello").2 (by decide) (by decide)⟩

/-- C6: the `Re:` subject-prefixing rule is idempotent: a second application
never changes the string, so an already-prefixed subject is never doubled. -/
theorem send_reply_subject_idempotent (s : String) :
    GmailClient.send_reply_subject (GmailClient.send_reply_subject s)
      = GmailClient.send_reply_subject s := by
  unfold GmailClient.send_reply_subject
  by_cases h : (rsStartsWith s "Re:" || rsStartsWith s "RE:") = true
  · rw [if_pos h, if_pos h]
  · rw [if_neg h]
    rw [if_pos (by simp [rsStartsWith_Re_append s])]

/-! ## `email.rs` — the `Email` entity and `body_text` (email.rs lines 4-26, 100-113)

`html2text::from_read(html.as_bytes(), 80)` is an external library call; it is
modelled as an explicit `render : String → Nat → Except Unit String` parameter
(the html string and the column width, failing like the `Result` it returns).
`chrono::DateTime<Utc>` is modelled as an `Int` Unix timestamp. -/

structure Attachment where
  filename : String
  mime_type : String
  size : Nat
  attachment_id : String
  deriving DecidableEq, Repr

structure Email where
  id : String
  thread_id : String
  subject : String
  «from» : String
  «to» : String
  date : Int
  snippet : String
  body_plain : Option String
  body_html : Option String
  labels : List String
  attachments : List Attachment
  is_unread : Bool
  deriving DecidableEq, Repr

/-- The html/snippet tiers of `Email::body_text`:
```rust
if let Some(html) = &self.body_html
    && !html.is_empty()
        && let Ok(text) = html2text::from_read(html.as_bytes(), 80) {
            return text;
        }
self.snippet.clone()
``` -/
def Email.body_text_html_tier (render : String → Nat → Except Unit String)
    (e : Email) : String :=
  match e.body_html with
  | some html =>
    if html.isEmpty = false then
      match render html 80 with
      | .ok text => text
      | .error _ => e.snippet
    else e.snippet
  | none => e.snippet

/-- `Email::body_text` (email.rs lines 100-113). -/
def Email.body_text (render : String → Nat → Except Unit String)
    (e : Email) : String :=
  match e.body_plain with
  | some plain =>
    if plain.isEmpty = false then plain
    else Email.body_text_html_tier render e
  | none => Email.body_text_html_tier render e

theorem empty_isEmpty : ("" : String).isEmpty = true := rfl

/-- C7: `body_text` is a total three-tier fallback: a present non-empty plain
body is returned verbatim; otherwise a present non-empty html body is returned
rendered at width 80; otherwise the provider snippet is returned. -/
theorem body_text_three_tier (render : String → Nat → Except Unit String)
    (e : Email) :
    (∀ p, e.body_plain = some p → p ≠ "" → e.body_text render = p) ∧
    ((e.body_plain = none ∨ e.body_plain = some "") →
      ∀ h t, e.body_html = some h → h ≠ "" → render h 80 = .ok t →
        e.body_text render = t) ∧
    ((e.body_plain = none ∨ e.body_plain = some "") →
      (e.body_html = none ∨ e.body_html = some "") →
      e.body_text render = e.snippet) := by
  refine ⟨?_, ?_, ?_⟩
  · intro p hp hne
    simp [Email.body_text, hp, String.isEmpty_iff, hne]
  · intro hplain h t hh hne hr
    have htier : e.body_text_html_tier render = t := by
      simp [Email.body_text_html_tier, hh, String.isEmpty_iff, hne, hr]
    rcases hplain with hp | hp <;>
      simp [Email.body_text, hp, htier, empty_isEmpty]
  · intro hplain hhtml
    have htier : e.body_text_html_tier render = e.snippet := by
      rcases hhtml with hh | hh <;>
        simp [Email.body_text_html_tier, hh, empty_isEmpty]
    rcases hplain with hp | hp <;>
      simp [Email.body_text, hp, htier, empty_isEmpty]

/-- Witness for `body_text_three_tier`: one concrete email per tier, with a
concrete renderer. -/
theorem body_text_three_tier_witness :
    (Email.mk "1" "t1" "s" "f" "t" 0 "snip" (some "plain") (some "<p>x</p>")
        [] [] true).body_text (fun h _ => .ok ("R:" ++ h)) = "plain" ∧
    (Email.mk "2" "t2" "s" "f" "t" 0 "snip" none (some "<p>x</p>")
        [] [] true).body_text (fun h _ => .ok ("R:" ++ h)) = "R:<p>x</p>" ∧
    (Email.mk "3" "t3" "s" "f" "t" 0 "snip" (some "") none
        [] [] true).body_text (fun h _ => .ok ("R:" ++ h)) = "snip" := by
  refine ⟨?_, ?_, ?_⟩
  · exact (body_text_three_tier _ _).1 "plain" rfl (by decide)
  · exact (body_text_three_tier _ _).2.1 (Or.inl rfl) "<p>x</p>" "R:<p>x</p>"
      rfl (by decide) rfl
  · exact (body_text_three_tier _ _).2.2 (Or.inr rfl) (Or.inl rfl)

/-! ## `gmail.rs` — stored tokens and `GmailClient::get_valid_token` (lines 34-39, 63-85)

```rust
if token_path.exists() {
    let stored: StoredToken = serde_json::from_str(&content)?;
    let is_expired = stored.expires_at.map(|exp| exp < Utc::now()).unwrap_or(true);
    if !is_expired { return Ok(stored.access_token); }
    if let Ok(new_token) = Self::refresh_token(account, &stored.refresh_token).await {
        return Ok(new_token);
    }
}
Self::oauth_flow(account).await
```
A readable, parseable token file is modelled as `stored = some st`; `Utc::now()`
as `now : Int`; the outcome of the refresh-token grant, when attempted, as
`refreshOutcome : Option String`; `oauth_flow`'s token as `oauthOutcome`.  The
returned `Bool` records whether the refresh-token grant was attempted. -/

structure StoredToken where
  access_token : String
  refresh_token : String
  expires_at : Option Int
  deriving DecidableEq, Repr

def GmailClient.get_valid_token (stored : Option StoredToken) (now : Int)
    (refreshOutcome : Option String) (oauthOutcome : String) : String × Bool :=
  match stored with
  | some st =>
    let is_expired := (st.expires_at.map (fun exp => decide (exp < now))).getD true
    if is_expired = false then (st.access_token, false)
    else
      match refreshOutcome with
      | some newToken => (newToken, true)
      | none => (oauthOutcome, true)
  | none => (oauthOutcome, false)

/-- C2: for a stored token whose expiry is in the past, or whose expiry is
absent, `get_valid_token` always attempts the refresh-token grant before
returning anything (so the previously stored access token is never returned
without a refresh attempt). -/
theorem get_valid_token_expired_attempts_refresh (st : StoredToken) (now : Int)
    (refreshOutcome : Option String) (oauthOutcome : String)
    (hexp : st.expires_at = none ∨ ∃ e, st.expires_at = some e ∧ e < now) :
    (GmailClient.get_valid_token (some st) now refreshOutcome oauthOutcome).2
      = true := by
  rcases hexp with hnone | ⟨e, he, hlt⟩ <;>
    rcases refreshOutcome with _ | t <;>
      simp [GmailClient.get_valid_token, *]

/-- Witness for `get_valid_token_expired_attempts_refresh`: a token with no
expiry at all forces a refresh attempt. -/
theorem get_valid_token_expired_attempts_refresh_witness :
    (GmailClient.get_valid_token (some ⟨"oldtok", "refresh", none⟩) 0 none
      "oauthtok").2 = true :=
  get_valid_token_expired_attempts_refresh ⟨"oldtok", "refresh", none⟩ 0 none
    "oauthtok" (Or.inl rfl)

/-! ## `config.rs` — account management (lines 7-13, 22-26, 190-235)

Only the `gmail` sub-configuration takes part in account management, so the
embedding carries `GmailConfig` alone.  `Config::save()` writes the
configuration to disk and is irrelevant to the in-memory state, so the
embedded operations return the updated configuration (`Except` models the
`anyhow::bail!` error paths). -/

structure GmailAccount where
  id : String
  email : Option String
  client_id : String
  client_secret : String
  deriving DecidableEq, Repr

structure GmailConfig where
  accounts : List GmailAccount
  default_account : Option String
  deriving DecidableEq, Repr

namespace Config

/-- `Config::add_account` (config.rs lines 190-202). -/
def add_account (c : GmailConfig) (account : GmailAccount) :
    Except String GmailConfig :=
  if c.accounts.any (fun a => a.id == account.id) then
    .error ("Account '" ++ account.id ++ "' already exists")
  else
    let c :=
      if c.accounts.isEmpty then { c with default_account := some account.id }
      else c
    .ok { c with accounts := c.accounts ++ [account] }

/-- `Config::remove_account` (config.rs lines 205-225); the token-file removal
is a filesystem effect with no bearing on the configuration state. -/
def remove_account (c : GmailConfig) (id : String) : Except String GmailConfig :=
  let accounts' := c.accounts.filter (fun a => a.id != id)
  if accounts'.length = c.accounts.length then
    .error ("Account '" ++ id ++ "' not found")
  else
    let c := { c with accounts := accounts' }
    let c :=
      if c.default_account = some id then
        { c with default_account := c.accounts.head?.map (fun a => a.id) }
      else c
    .ok c

/-- `Config::set_default_account` (config.rs lines 228-235). -/
def set_default_account (c : GmailConfig) (id : String) :
    Except String GmailConfig :=
  if (c.accounts.any (fun a => a.id == id)) = false then
    .error ("Account '" ++ id ++ "' not found")
  else .ok { c with default_account := some id }

end Config

/-- The invariant of C10: when the accounts list is non-empty, the default
account id names an account that exists in the list. -/
def DefaultNamesExisting (c : GmailConfig) : Prop :=
  c.accounts ≠ [] → ∃ a ∈ c.accounts, c.default_account = some a.id

instance (c : GmailConfig) : Decidable (DefaultNamesExisting c) := by
  unfold DefaultNamesExisting; infer_instance

/-- C10: the three account-management operations preserve
`DefaultNamesExisting`; `add_account` makes the first account added the
default; `remove_account` of the current default reassigns the default to the
first remaining account (or clears it when none remain); and
`set_default_account` succeeds only for an existing account id, which becomes
the default. -/
theorem account_ops_preserve_default_invariant :
    (∀ c a c', DefaultNamesExisting c → Config.add_account c a = .ok c' →
      DefaultNamesExisting c') ∧
    (∀ c a c', c.accounts = [] → Config.add_account c a = .ok c' →
      c'.default_account = some a.id) ∧
    (∀ c id c', DefaultNamesExisting c → Config.remove_account c id = .ok c' →
      DefaultNamesExisting c' ∧
        (c.default_account = some id →
          c'.default_account = c'.accounts.head?.map (fun a => a.id))) ∧
    (∀ c id c', Config.set_default_account c id = .ok c' →
      (∃ a ∈ c.accounts, a.id = id) ∧ c'.default_account = some id ∧
        DefaultNamesExisting c') := by
  refine ⟨?_, ?_, ?_, ?_⟩
  · intro c a c' hinv hok
    unfold Config.add_account at hok
    by_cases hdup : c.accounts.any (fun x => x.id == a.id)
    · simp [hdup] at hok
    · simp only [hdup, if_false, Bool.false_eq_true] at hok
      by_cases hempty : c.accounts.isEmpty
      · have hnil : c.accounts = [] := by
          simpa [List.isEmpty_iff] using hempty
        simp only [hempty, if_true, Except.ok.injEq] at hok
        subst hok
        intro _
        exact ⟨a, by simp [hnil]⟩
      · simp only [hempty, if_false, Bool.false_eq_true, Except.ok.injEq] at hok
        subst hok
        intro _
        have hne : c.accounts ≠ [] := by
          simpa [List.isEmpty_iff] using hempty
        obtain ⟨x, hx, hdef⟩ := hinv hne
        exact ⟨x, List.mem_append_left _ hx, hdef⟩
  · intro c a c' hnil hok
    unfold Config.add_account at hok
    simp [hnil] at hok
    subst hok
    rfl
  · intro c id c' hinv hok
    unfold Config.remove_account at hok
    by_cases hlen :
        (c.accounts.filter (fun a => a.id != id)).length = c.accounts.length
    · simp [hlen] at hok
    · simp only [hlen, if_false, reduceIte] at hok
      have hne : c.accounts ≠ [] := by
        intro h
        exact hlen (by simp [h])
      by_cases hdef : c.default_account = some id
      · simp only [hdef, if_pos rfl, Except.ok.injEq] at hok
        subst hok
        refine ⟨?_, fun _ => rfl⟩
        intro hne'
        rcases hfil : c.accounts.filter (fun a => a.id != id) with _ | ⟨a0, tl⟩
        · exact absurd (by simpa using hfil) hne'
        · exact ⟨a0, by simp [hfil], by simp [hfil]⟩
      · simp only [if_neg hdef, Except.ok.injEq] at hok
        subst hok
        refine ⟨?_, fun h => absurd h hdef⟩
        intro _
        obtain ⟨x, hx, hxdef⟩ := hinv hne
        have hxid : x.id ≠ id := by
          intro h
          exact hdef (by rw [hxdef, h])
        exact ⟨x, List.mem_filter.mpr ⟨hx, by simp [hxid]⟩, hxdef⟩
  · intro c id c' hok
    unfold Config.set_default_account at hok
    by_cases hany : c.accounts.any (fun a => a.id == id)
    · rw [if_neg (by simp [hany])] at hok
      injection hok with hok
      subst hok
      obtain ⟨x, hx, hxid⟩ := List.any_eq_true.mp hany
      refine ⟨⟨x, hx, by simpa using hxid⟩, rfl, ?_⟩
      intro _
      exact ⟨x, hx, by simp [show x.id = id by simpa using hxid]⟩
    · simp [hany] at hok

/-- Witness for `account_ops_preserve_default_invariant`: adding the first
account to an empty configuration yields a configuration satisfying the
invariant. -/
theorem account_ops_preserve_default_invariant_witness :
    DefaultNamesExisting
      (GmailConfig.mk [GmailAccount.mk "work" none "ci" "cs"] (some "work")) :=
  account_ops_preserve_default_invariant.1
    (GmailConfig.mk [] none) (GmailAccount.mk "work" none "ci" "cs")
    (GmailConfig.mk [GmailAccount.mk "work" none "ci" "cs"] (some "work"))
    (by decide) (by rfl)

/-! ## Bytes: base64url and UTF-8

`extract_body` (gmail.rs lines 325-354) decodes each part's `body.data` with
the `base64` crate's `URL_SAFE` engine (base64url alphabet, canonical padding
required, non-zero trailing bits rejected) and then `String::from_utf8`.
Bytes are modelled as `List Nat` (entries < 256). -/

/-- Value of one character of the base64url alphabet (`A-Z a-z 0-9 - _`). -/
def b64UrlVal (c : Char) : Option Nat :=
  if 'A' ≤ c ∧ c ≤ 'Z' then some (c.toNat - 65)
  else if 'a' ≤ c ∧ c ≤ 'z' then some (c.toNat - 97 + 26)
  else if '0' ≤ c ∧ c ≤ '9' then some (c.toNat - 48 + 52)
  else if c = '-' then some 62
  else if c = '_' then some 63
  else none

/-- Decode base64url input in blocks of four characters; `=` padding may
appear only in the final block, and the unused trailing bits of the final
symbol must be zero (the `base64` crate's canonical decoding). -/
def b64DecodeChunks : List Char → Option (List Nat)
  | [] => some []
  | a :: b :: c :: d :: rest =>
    match b64UrlVal a, b64UrlVal b with
    | some va, some vb =>
      if c = '=' then
        if d = '=' ∧ rest = [] ∧ vb % 16 = 0 then some [va * 4 + vb / 16]
        else none
      else
        match b64UrlVal c with
        | some vc =>
          if d = '=' then
            if rest = [] ∧ vc % 4 = 0 then
              some [va * 4 + vb / 16, vb % 16 * 16 + vc / 4]
            else none
          else
            match b64UrlVal d with
            | some vd =>
              (b64DecodeChunks rest).map
                (fun tail =>
                  (va * 4 + vb / 16) :: (vb % 16 * 16 + vc / 4) ::
                    (vc % 4 * 64 + vd) :: tail)
            | none => none
        | none => none
    | _, _ => none
  | _ => none

/-- `base64::engine::general_purpose::URL_SAFE.decode` on a string. -/
def base64UrlPadDecode (s : String) : Option (List Nat) :=
  b64DecodeChunks s.toList

/-- A UTF-8 continuation byte. -/
def isCont (b : Nat) : Bool := decide (0x80 ≤ b ∧ b ≤ 0xBF)

/-- Strict UTF-8 decoding (the validity predicate of Rust's
`String::from_utf8`): rejects overlong encodings, surrogate code points and
values above U+10FFFF. -/
def utf8DecodeChars : List Nat → Option (List Char)
  | [] => some []
  | b :: bs =>
    if b < 0x80 then
      (utf8DecodeChars bs).map (fun cs => Char.ofNat b :: cs)
    else if b < 0xC2 then none
    else if b ≤ 0xDF then
      match bs with
      | b1 :: rest =>
        if isCont b1 then
          (utf8DecodeChars rest).map
            (fun cs => Char.ofNat ((b - 0xC0) * 0x40 + (b1 - 0x80)) :: cs)
        else none
      | [] => none
    else if b ≤ 0xEF then
      match bs with
      | b1 :: b2 :: rest =>
        let okB1 :=
          if b = 0xE0 then decide (0xA0 ≤ b1 ∧ b1 ≤ 0xBF)
          else if b = 0xED then decide (0x80 ≤ b1 ∧ b1 ≤ 0x9F)
          else isCont b1
        if okB1 && isCont b2 then
          (utf8DecodeChars rest).map
            (fun cs =>
              Char.ofNat
                ((b - 0xE0) * 0x1000 + (b1 - 0x80) * 0x40 + (b2 - 0x80)) :: cs)
        else none
      | _ => none
    else if b ≤ 0xF4 then
      match bs with
      | b1 :: b2 :: b3 :: rest =>
        let okB1 :=
          if b = 0xF0 then decide (0x90 ≤ b1 ∧ b1 ≤ 0xBF)
          else if b = 0xF4 then decide (0x80 ≤ b1 ∧ b1 ≤ 0x8F)
          else isCont b1
        if okB1 && isCont b2 && isCont b3 then
          (utf8DecodeChars rest).map
            (fun cs =>
              Char.ofNat
                ((b - 0xF0) * 0x40000 + (b1 - 0x80) * 0x1000 +
                  (b2 - 0x80) * 0x40 + (b3 - 0x80)) :: cs)
        else none
      | _ => none
    else none

/-- Rust `String::from_utf8`. -/
def string_from_utf8 (bytes : List Nat) : Option String :=
  (utf8DecodeChars bytes).map (fun cs => String.mk cs)

/-! ## `ai.rs` — the excerpt-truncation helper (lines 178-184)

```rust
fn truncate(s: &str, max_len: usize) -> String {
    if s.len() <= max_len {
        s.to_string()
    } else {
        format!("{}...", &s[..max_len])
    }
}
```
`s.len()` is the UTF-8 byte length; `&s[..max_len]` panics when `max_len` is
not a character boundary of `s`.  A panic is modelled as `none`.  The byte
prefix of length `n` is well formed exactly when `n` is the total UTF-8 size
of some character prefix, which is what `takeBytes` computes. -/

/-- Number of UTF-8 bytes of one character. -/
def charUtf8Size (c : Char) : Nat :=
  if c.toNat < 0x80 then 1
  else if c.toNat < 0x800 then 2
  else if c.toNat < 0x10000 then 3
  else 4

/-- `str::len` — the UTF-8 byte length. -/
def utf8Len (s : String) : Nat := (s.toList.map charUtf8Size).sum

/-- The characters of the byte slice `[..n]`, or `none` when `n` is not a
character boundary. -/
def takeBytes : List Char → Nat → Option (List Char)
  | _, 0 => some []
  | [], _ + 1 => none
  | c :: cs, n + 1 =>
    if charUtf8Size c ≤ n + 1 then
      (takeBytes cs (n + 1 - charUtf8Size c)).map (fun l => c :: l)
    else none

/-- `ai.rs`'s `truncate`; `none` models the slicing panic. -/
def truncate (s : String) (max_len : Nat) : Option String :=
  if utf8Len s ≤ max_len then some s
  else
    match takeBytes s.toList max_len with
    | some pre => some (String.mk pre ++ "...")
    | none => none

/-- C9: the truncation helper panics when the byte bound falls inside a
multi-byte UTF-8 character: `truncate("é", 1)` slices `"é"` (two bytes) at
byte index 1, which is not a character boundary. -/
theorem truncate_panics_inside_multibyte :
    truncate "é" 1 = none ∧ truncate "ab" 1 = some "a..." := by
  constructor <;> rfl

/-! ## `gmail.rs` — the MIME part tree and `GmailClient::extract_body` (lines 325-354, 527-549) -/

structure Header where
  name : String
  value : String
  deriving DecidableEq, Repr

structure MessageBody where
  data : Option String
  size : Option Nat
  attachment_id : Option String
  deriving DecidableEq, Repr

/-- `MessagePart` (gmail.rs lines 527-535); recursive through
`parts : Option<Vec<MessagePart>>`. -/
inductive MessagePart where
  | mk : Option String → Option (List Header) → Option MessageBody →
      Option (List MessagePart) → Option String → MessagePart

def MessagePart.mime_type : MessagePart → Option String
  | .mk m _ _ _ _ => m

def MessagePart.headers : MessagePart → Option (List Header)
  | .mk _ h _ _ _ => h

def MessagePart.body : MessagePart → Option MessageBody
  | .mk _ _ b _ _ => b

def MessagePart.parts : MessagePart → Option (List MessagePart)
  | .mk _ _ _ p _ => p

def MessagePart.filename : MessagePart → Option String
  | .mk _ _ _ _ f => f

namespace GmailClient

/-- The part-local update applied by `process_part` (gmail.rs lines 330-343)
before recursing into the children: a `text/plain` part whose `body.data`
base64-decodes overwrites the plain accumulator with the result of
`String::from_utf8` (note: unconditionally — not only when the accumulator is
still empty), and symmetrically for `text/html`. -/
def bodyStep (acc : Option String × Option String) (part : MessagePart) :
    Option String × Option String :=
  let mime := part.mime_type.getD ""
  if mime = "text/plain" then
    match part.body.bind MessageBody.data with
    | some data =>
      match base64UrlPadDecode data with
      | some decoded => (string_from_utf8 decoded, acc.2)
      | none => acc
    | none => acc
  else if mime = "text/html" then
    match part.body.bind MessageBody.data with
    | some data =>
      match base64UrlPadDecode data with
      | some decoded => (acc.1, string_from_utf8 decoded)
      | none => acc
    | none => acc
  else acc

mutual

/-- `process_part` (gmail.rs lines 329-350): update the accumulators from this
part, then recurse into the children in order. -/
def process_part (part : MessagePart) (acc : Option String × Option String) :
    Option String × Option String :=
  let acc := bodyStep acc part
  match part with
  | .mk _ _ _ (some ps) _ => process_part_list ps acc
  | .mk _ _ _ none _ => acc

/-- The `for p in parts { process_part(p, ...) }` loop. -/
def process_part_list (parts : List MessagePart)
    (acc : Option String × Option String) : Option String × Option String :=
  match parts with
  | [] => acc
  | p :: ps => process_part_list ps (process_part p acc)

end

/-- `GmailClient::extract_body` (gmail.rs lines 325-354). -/
def extract_body (payload : MessagePart) : Option String × Option String :=
  process_part payload (none, none)

end GmailClient

mutual

/-- The parts of a MIME tree in the depth-first order in which `process_part`
visits them. -/
def dfs_part (part : MessagePart) : List MessagePart :=
  part ::
    (match part with
     | .mk _ _ _ (some ps) _ => dfs_list ps
     | .mk _ _ _ none _ => [])

def dfs_list (parts : List MessagePart) : List MessagePart :=
  match parts with
  | [] => []
  | p :: ps => dfs_part p ++ dfs_list ps

end

/-- The update, if any, that one MIME part contributes to the plain-body
accumulator: `some v` when the part is `text/plain` with base64-decodable
data (`v` is the `String::from_utf8` result), `none` when the part leaves the
accumulator untouched. -/
def plain_update (part : MessagePart) : Option (Option String) :=
  if part.mime_type.getD "" = "text/plain" then
    match part.body.bind MessageBody.data with
    | some data =>
      match base64UrlPadDecode data with
      | some decoded => some (string_from_utf8 decoded)
      | none => none
    | none => none
  else none

/-- As `plain_update`, for the html-body accumulator. -/
def html_update (part : MessagePart) : Option (Option String) :=
  if part.mime_type.getD "" = "text/html" then
    match part.body.bind MessageBody.data with
    | some data =>
      match base64UrlPadDecode data with
      | some decoded => some (string_from_utf8 decoded)
      | none => none
    | none => none
  else none

theorem bodyStep_eq (acc : Option String × Option String) (part : MessagePart) :
    GmailClient.bodyStep acc part =
      ((plain_update part).getD acc.1, (html_update part).getD acc.2) := by
  simp only [GmailClient.bodyStep, plain_update, html_update]
  by_cases h1 : part.mime_type.getD "" = "text/plain"
  · have h2 : ¬ part.mime_type.getD "" = "text/html" := by simp [h1]
    simp only [h1, h2, if_true, if_false, reduceIte]
    rcases hdata : part.body.bind MessageBody.data with _ | data
    · simp
    · rcases hdec : base64UrlPadDecode data with _ | dec <;> simp [hdec]
  · by_cases h2 : part.mime_type.getD "" = "text/html"
    · simp only [h1, h2, if_true, if_false, reduceIte]
      rcases hdata : part.body.bind MessageBody.data with _ | data
      · simp
      · rcases hdec : base64UrlPadDecode data with _ | dec <;> simp [hdec]
    · simp [h1, h2]

mutual

theorem process_part_eq_foldl (part : MessagePart)
    (acc : Option String × Option String) :
    GmailClient.process_part part acc =
      (dfs_part part).foldl GmailClient.bodyStep acc := by
  match part with
  | .mk m h b (some ps) f =>
    rw [GmailClient.process_part, dfs_part]
    simp only [List.foldl_cons]
    exact process_part_list_eq_foldl ps _
  | .mk m h b none f =>
    rw [GmailClient.process_part, dfs_part]
    simp

theorem process_part_list_eq_foldl (parts : List MessagePart)
    (acc : Option String × Option String) :
    GmailClient.process_part_list parts acc =
      (dfs_list parts).foldl GmailClient.bodyStep acc := by
  match parts with
  | [] =>
    rw [GmailClient.process_part_list, dfs_list]
    rfl
  | p :: ps =>
    rw [GmailClient.process_part_list, dfs_list, List.foldl_append,
      ← process_part_eq_foldl p acc]
    exact process_part_list_eq_foldl ps _

end

/-- Folding an "overwrite or keep" step is determined by the last update. -/
theorem foldl_overwrite {α β : Type} (f : α → Option β) (l : List α)
    (init : β) :
    l.foldl (fun acc x => (f x).getD acc) init =
      ((l.filterMap f).getLast?).getD init := by
  induction l generalizing init with
  | nil => rfl
  | cons x xs ih =>
    rw [List.foldl_cons, ih]
    rcases hf : f x with _ | v
    · simp [List.filterMap_cons, hf]
    · simp only [List.filterMap_cons, hf]
      cases h : xs.filterMap f with
      | nil => simp [h]
      | cons y ys =>
        rw [List.getLast?_cons_cons]
        obtain ⟨z, hz⟩ : ∃ z, (y :: ys).getLast? = some z :=
          Option.isSome_iff_exists.mp (by simp [List.getLast?_isSome])
        rw [hz]
        rfl

theorem foldl_bodyStep_fst (l : List MessagePart)
    (acc : Option String × Option String) :
    (l.foldl GmailClient.bodyStep acc).1 =
      l.foldl (fun a x => (plain_update x).getD a) acc.1 := by
  induction l generalizing acc with
  | nil => rfl
  | cons x xs ih =>
    rw [List.foldl_cons, List.foldl_cons, ih, bodyStep_eq]

theorem foldl_bodyStep_snd (l : List MessagePart)
    (acc : Option String × Option String) :
    (l.foldl GmailClient.bodyStep acc).2 =
      l.foldl (fun a x => (html_update x).getD a) acc.2 := by
  induction l generalizing acc with
  | nil => rfl
  | cons x xs ih =>
    rw [List.foldl_cons, List.foldl_cons, ih, bodyStep_eq]

/-- `text/plain` part decoding to `"A"` (base64url of `A` is `QQ==`). -/
def plainPartA : MessagePart :=
  .mk (some "text/plain") none (some ⟨some "QQ==", some 1, none⟩) none (some "")

/-- `text/plain` part decoding to `"B"`. -/
def plainPartB : MessagePart :=
  .mk (some "text/plain") none (some ⟨some "Qg==", some 1, none⟩) none (some "")

/-- `text/html` part decoding to `"hi"`. -/
def htmlPart : MessagePart :=
  .mk (some "text/html") none (some ⟨some "aGk=", some 2, none⟩) none (some "")

/-- A multipart message with `text/html` at depth 1 and `text/plain` at
depth 2 (inside a nested multipart). -/
def exBoth : MessagePart :=
  .mk (some "multipart/mixed") none none
    (some [htmlPart,
      .mk (some "multipart/alternative") none none (some [plainPartA])
        (some "")])
    (some "")

/-- A multipart message with two `text/plain` parts, `"A"` before `"B"` in
depth-first order. -/
def exTwoPlain : MessagePart :=
  .mk (some "multipart/mixed") none none (some [plainPartA, plainPartB])
    (some "")

/-- C1 counterexample: in a message whose depth-first part order contains the
`text/plain` parts `"A"` then `"B"`, the first such part decodes to `"A"`,
but `extract_body` returns `"B"` — the walk overwrites on every match, so the
LAST part wins, not the first as claimed. -/
theorem extract_body_keeps_last_not_first :
    (((dfs_part exTwoPlain).filterMap plain_update).head?).getD none
        = some "A" ∧
      GmailClient.extract_body exTwoPlain = (some "B", none) := by
  constructor <;> rfl

/-- C1 (amended): the depth-first walk collects the LAST `text/plain` part
(with base64-decodable data) for the plain body and the LAST `text/html` part
for the html body, each independently; a multipart message with `text/plain`
at depth 2 and `text/html` at depth 1 still yields both bodies populated. -/
theorem extract_body_collects_last :
    (∀ p : MessagePart,
      GmailClient.extract_body p =
        ((((dfs_part p).filterMap plain_update).getLast?).getD none,
          (((dfs_part p).filterMap html_update).getLast?).getD none)) ∧
      GmailClient.extract_body exBoth = (some "A", some "hi") := by
  constructor
  · intro p
    have h := process_part_eq_foldl p (none, none)
    apply Prod.ext
    · rw [GmailClient.extract_body, h, foldl_bodyStep_fst, foldl_overwrite]
    · rw [GmailClient.extract_body, h, foldl_bodyStep_snd, foldl_overwrite]
  · rfl

/-! ## `gmail.rs` — date parsing (`mod dateparse`, lines 551-573)

```rust
pub fn parse(s: &str) -> Result<i64, ()> {
    if let Ok(dt) = DateTime::parse_from_rfc2822(s) { return Ok(dt.timestamp()); }
    let formats = [
        "%a, %d %b %Y %H:%M:%S %z",
        "%d %b %Y %H:%M:%S %z",
        "%Y-%m-%d %H:%M:%S",
    ];
    for fmt in formats {
        if let Ok(dt) = DateTime::parse_from_str(s, fmt) { return Ok(dt.timestamp()); }
    }
    Err(())
}
```
`chrono` is external; it is modelled here for the canonical forms of these
format strings.  Crucially, `chrono::DateTime::parse_from_str` parses into a
`Parsed` record and then calls `Parsed::to_datetime`, which fails with
`NOT_ENOUGH` when no timezone offset was parsed — the documentation states
"this method requires a timezone in the input string".  The third format has
no `%z` item, so it can never produce a `DateTime`. -/

def isWsChar (c : Char) : Bool := c = ' ' ∨ c = '\t' ∨ c = '\n' ∨ c = '\r'

def skipWs (cs : List Char) : List Char := cs.dropWhile isWsChar

/-- Read up to `max` leading ASCII digits. -/
def takeDigits : Nat → List Char → List Char × List Char
  | 0, cs => ([], cs)
  | _ + 1, [] => ([], [])
  | n + 1, c :: cs =>
    if c.isDigit then
      let (ds, rest) := takeDigits n cs
      (c :: ds, rest)
    else ([], c :: cs)

def digitsVal (ds : List Char) : Nat :=
  ds.foldl (fun a c => a * 10 + (c.toNat - 48)) 0

/-- Consume a three-letter weekday name (case-insensitive). -/
def parseWeekdayName (cs : List Char) : Option (List Char) :=
  match cs with
  | c1 :: c2 :: c3 :: rest =>
    let w := [c1.toLower, c2.toLower, c3.toLower]
    if w = ['s', 'u', 'n'] ∨ w = ['m', 'o', 'n'] ∨ w = ['t', 'u', 'e'] ∨
        w = ['w', 'e', 'd'] ∨ w = ['t', 'h', 'u'] ∨ w = ['f', 'r', 'i'] ∨
        w = ['s', 'a', 't'] then
      some rest
    else none
  | _ => none

/-- Consume a three-letter month name (case-insensitive), returning 1-12. -/
def parseMonthName (cs : List Char) : Option (Nat × List Char) :=
  match cs with
  | c1 :: c2 :: c3 :: rest =>
    let w := [c1.toLower, c2.toLower, c3.toLower]
    if w = ['j', 'a', 'n'] then some (1, rest)
    else if w = ['f', 'e', 'b'] then some (2, rest)
    else if w = ['m', 'a', 'r'] then some (3, rest)
    else if w = ['a', 'p', 'r'] then some (4, rest)
    else if w = ['m', 'a', 'y'] then some (5, rest)
    else if w = ['j', 'u', 'n'] then some (6, rest)
    else if w = ['j', 'u', 'l'] then some (7, rest)
    else if w = ['a', 'u', 'g'] then some (8, rest)
    else if w = ['s', 'e', 'p'] then some (9, rest)
    else if w = ['o', 'c', 't'] then some (10, rest)
    else if w = ['n', 'o', 'v'] then some (11, rest)
    else if w = ['d', 'e', 'c'] then some (12, rest)
    else none
  | _ => none

/-- Consume a numeric timezone offset `±HH[:]MM`, in seconds. -/
def parseOffset (cs : List Char) : Option (Int × List Char) :=
  match cs with
  | sign :: d1 :: d2 :: rest =>
    if (sign = '+' ∨ sign = '-') ∧ d1.isDigit ∧ d2.isDigit then
      let hh := (d1.toNat - 48) * 10 + (d2.toNat - 48)
      let mmPart : Option (Nat × List Char) :=
        match rest with
        | ':' :: m1 :: m2 :: r2 =>
          if m1.isDigit ∧ m2.isDigit then
            some ((m1.toNat - 48) * 10 + (m2.toNat - 48), r2)
          else none
        | m1 :: m2 :: r2 =>
          if m1.isDigit ∧ m2.isDigit then
            some ((m1.toNat - 48) * 10 + (m2.toNat - 48), r2)
          else none
        | _ => none
      match mmPart with
      | some (mm, r2) =>
        let total : Int := (hh * 3600 + mm * 60 : Nat)
        some (if sign = '-' then -total else total, r2)
      | none => none
    else none
  | _ => none

/-- Obsolete RFC 2822 zone names accepted by `chrono` (seconds east). -/
def parseZoneName (cs : List Char) : Option (Int × List Char) :=
  match cs with
  | 'G' :: 'M' :: 'T' :: r => some (0, r)
  | 'U' :: 'T' :: r => some (0, r)
  | 'E' :: 'S' :: 'T' :: r => some (-18000, r)
  | 'E' :: 'D' :: 'T' :: r => some (-14400, r)
  | 'C' :: 'S' :: 'T' :: r => some (-21600, r)
  | 'C' :: 'D' :: 'T' :: r => some (-18000, r)
  | 'M' :: 'S' :: 'T' :: r => some (-25200, r)
  | 'M' :: 'D' :: 'T' :: r => some (-21600, r)
  | 'P' :: 'S' :: 'T' :: r => some (-28800, r)
  | 'P' :: 'D' :: 'T' :: r => some (-25200, r)
  | _ => none

/-- Days since 1970-01-01 of a civil date (Howard Hinnant's algorithm; exact
for the years a four-digit parse can produce). -/
def daysFromCivil (y : Int) (m d : Nat) : Int :=
  let y' := if m ≤ 2 then y - 1 else y
  let era := (if 0 ≤ y' then y' else y' - 399) / 400
  let yoe := y' - era * 400
  let mp := (m + 9) % 12
  let doy : Int := (153 * mp + 2) / 5 + d - 1
  let doe := yoe * 365 + yoe / 4 - yoe / 100 + doy
  era * 146097 + doe - 719468

/-- Unix timestamp of a civil date-time at UTC. -/
def civilTimestamp (y : Int) (mo d h mi s : Nat) : Int :=
  daysFromCivil y mo d * 86400 + (h * 3600 + mi * 60 + s : Nat)

/-- The fields chrono's format parser can fill for the formats used by
`dateparse` (chrono's `Parsed`, restricted to the items that occur). -/
structure ChronoParsed where
  year : Option Int := none
  month : Option Nat := none
  day : Option Nat := none
  hour : Option Nat := none
  minute : Option Nat := none
  second : Option Nat := none
  offset : Option Int := none
  deriving DecidableEq, Repr

/-- `Parsed::to_datetime`: requires a complete date and time AND a parsed
timezone offset; with no offset it fails (`NOT_ENOUGH`) — quoting the chrono
documentation for `DateTime::parse_from_str`: "this method requires a
timezone in the input string". -/
def ChronoParsed.to_datetime (p : ChronoParsed) : Option Int :=
  match p.year, p.month, p.day, p.hour, p.minute, p.offset with
  | some y, some mo, some d, some h, some mi, some off =>
    let s := p.second.getD 0
    if 1 ≤ mo ∧ mo ≤ 12 ∧ 1 ≤ d ∧ d ≤ 31 ∧ h ≤ 23 ∧ mi ≤ 59 ∧ s ≤ 60 then
      some (civilTimestamp y mo d h mi s - off)
    else none
  | _, _, _, _, _, _ => none

/-- The strftime items occurring in `dateparse`'s three format strings. -/
inductive FmtItem where
  | lit : Char → FmtItem
  | space : FmtItem
  | wdayName : FmtItem
  | day : FmtItem
  | monthName : FmtItem
  | monthNum : FmtItem
  | year : FmtItem
  | hour : FmtItem
  | minute : FmtItem
  | second : FmtItem
  | tzOffset : FmtItem

/-- `"%a, %d %b %Y %H:%M:%S %z"` as items. -/
def fmt1 : List FmtItem :=
  [.wdayName, .lit ',', .space, .day, .space, .monthName, .space, .year,
    .space, .hour, .lit ':', .minute, .lit ':', .second, .space, .tzOffset]

/-- `"%d %b %Y %H:%M:%S %z"` as items. -/
def fmt2 : List FmtItem :=
  [.day, .space, .monthName, .space, .year, .space, .hour, .lit ':', .minute,
    .lit ':', .second, .space, .tzOffset]

/-- `"%Y-%m-%d %H:%M:%S"` as items — note: no `%z`, so no offset is ever
parsed from it. -/
def fmt3 : List FmtItem :=
  [.year, .lit '-', .monthNum, .lit '-', .day, .space, .hour, .lit ':',
    .minute, .lit ':', .second]

/-- Run a format-item list over the input (chrono's `parse`): literal items
match exactly, whitespace items eat any whitespace, numeric items read
greedily up to their width; trailing input is an error (`TOO_LONG`). -/
def runItems : List FmtItem → List Char → ChronoParsed → Option ChronoParsed
  | [], cs, p => if cs = [] then some p else none
  | item :: items, cs, p =>
    match item with
    | .lit ch =>
      match cs with
      | c :: rest => if c = ch then runItems items rest p else none
      | [] => none
    | .space => runItems items (skipWs cs) p
    | .wdayName =>
      (parseWeekdayName cs).bind (fun rest => runItems items rest p)
    | .day =>
      let (ds, rest) := takeDigits 2 cs
      if ds = [] then none
      else runItems items rest { p with day := some (digitsVal ds) }
    | .monthName =>
      (parseMonthName cs).bind
        (fun x => runItems items x.2 { p with month := some x.1 })
    | .monthNum =>
      let (ds, rest) := takeDigits 2 cs
      if ds = [] then none
      else runItems items rest { p with month := some (digitsVal ds) }
    | .year =>
      let (ds, rest) := takeDigits 4 cs
      if ds = [] then none
      else runItems items rest { p with year := some (digitsVal ds : Nat) }
    | .hour =>
      let (ds, rest) := takeDigits 2 cs
      if ds = [] then none
      else runItems items rest { p with hour := some (digitsVal ds) }
    | .minute =>
      let (ds, rest) := takeDigits 2 cs
      if ds = [] then none
      else runItems items rest { p with minute := some (digitsVal ds) }
    | .second =>
      let (ds, rest) := takeDigits 2 cs
      if ds = [] then none
      else runItems items rest { p with second := some (digitsVal ds) }
    | .tzOffset =>
      (parseOffset cs).bind
        (fun x => runItems items x.2 { p with offset := some x.1 })

/-- `chrono::DateTime::parse_from_str`: run the items, then
`Parsed::to_datetime` (which demands an offset). -/
def parse_from_str (items : List FmtItem) (s : String) : Option Int :=
  (runItems items s.toList {}).bind ChronoParsed.to_datetime

/-- The zone of an RFC 2822 date: a numeric offset or an obsolete zone name,
followed only by whitespace. -/
def rfc2822Zone (y : Int) (mo d h mi s : Nat) (cs : List Char) : Option Int :=
  if 1 ≤ mo ∧ mo ≤ 12 ∧ 1 ≤ d ∧ d ≤ 31 ∧ h ≤ 23 ∧ mi ≤ 59 ∧ s ≤ 60 then
    match parseOffset (skipWs cs) with
    | some (off, rest) =>
      if skipWs rest = [] then some (civilTimestamp y mo d h mi s - off)
      else none
    | none =>
      match parseZoneName (skipWs cs) with
      | some (off, rest) =>
        if skipWs rest = [] then some (civilTimestamp y mo d h mi s - off)
        else none
      | none => none
  else none

/-- Tail of the RFC 2822 grammar after the optional weekday:
`day month year time zone`. -/
def rfc2822AfterWeekday (cs : List Char) : Option Int :=
  let (dds, cs) := takeDigits 2 (skipWs cs)
  if dds = [] then none
  else
    let d := digitsVal dds
    match parseMonthName (skipWs cs) with
    | none => none
    | some (mo, cs) =>
      let (yds, cs) := takeDigits 4 (skipWs cs)
      if yds.length ≠ 4 then none
      else
        let y : Int := (digitsVal yds : Nat)
        match skipWs cs with
        | h1 :: h2 :: ':' :: m1 :: m2 :: rest =>
          if h1.isDigit ∧ h2.isDigit ∧ m1.isDigit ∧ m2.isDigit then
            let h := (h1.toNat - 48) * 10 + (h2.toNat - 48)
            let mi := (m1.toNat - 48) * 10 + (m2.toNat - 48)
            match rest with
            | ':' :: s1 :: s2 :: r =>
              if s1.isDigit ∧ s2.isDigit then
                rfc2822Zone y mo d h mi ((s1.toNat - 48) * 10 + (s2.toNat - 48)) r
              else none
            | _ => rfc2822Zone y mo d h mi 0 rest
          else none
        | _ => none

/-- `chrono::DateTime::parse_from_rfc2822` on the canonical RFC 2822 forms:
`[weekday ","] day month year HH:MM[:SS] zone` (the consistency of a present
weekday with the date is checked by chrono; the dates evaluated below are
consistent). -/
def parse_from_rfc2822 (s : String) : Option Int :=
  let cs := skipWs s.toList
  match parseWeekdayName cs with
  | some rest =>
    match rest with
    | ',' :: r2 => rfc2822AfterWeekday r2
    | _ => none
  | none => rfc2822AfterWeekday cs

namespace dateparse

/-- `dateparse::parse` (gmail.rs lines 554-572). -/
def parse (s : String) : Except Unit Int :=
  match parse_from_rfc2822 s with
  | some ts => .ok ts
  | none =>
    match parse_from_str fmt1 s with
    | some ts => .ok ts
    | none =>
      match parse_from_str fmt2 s with
      | some ts => .ok ts
      | none =>
        match parse_from_str fmt3 s with
        | some ts => .ok ts
        | none => .error ()

end dateparse

/-- The date computation of `GmailClient::parse_message` (gmail.rs lines
297-300): a parse failure falls back to `Utc::now()` (the `now` parameter);
`DateTime::from_timestamp(ts, 0)` is total on every timestamp the four-digit
year parses can produce. -/
def parse_message_date (now : Int) (dateHeader : String) : Int :=
  match dateparse.parse dateHeader with
  | .ok ts => ts
  | .error _ => now

/-- C3: the third fallback format is dead code.  `"2024-01-02 03:04:05"` is
exactly the third format's calendar form, yet `dateparse::parse` rejects it —
`DateTime::parse_from_str` cannot build a `DateTime` without a timezone item
— and `parse_message` therefore stamps such an email with the current
instant, not with the written calendar time.  (The RFC 2822 path, by
contrast, does parse its form of the same calendar time.) -/
theorem dateparse_third_format_never_parses :
    dateparse.parse "2024-01-02 03:04:05" = .error () ∧
      runItems fmt3 "2024-01-02 03:04:05".toList {} =
        some { year := some 2024, month := some 1, day := some 2,
               hour := some 3, minute := some 4, second := some 5 } ∧
      parse_message_date 1700000000 "2024-01-02 03:04:05" = 1700000000 ∧
      dateparse.parse "Tue, 2 Jan 2024 03:04:05 +0000" = .ok 1704164645 := by
  refine ⟨rfl, rfl, rfl, rfl⟩

/-! ## `main.rs` — the interactive triage loop (`run_interactive`, lines 463-628)

The controller's external collaborators are modelled as scripts of outcomes,
consumed in call order:
- `tui.wait_for_action()` consumes from the `actions` list (one entry per
  inner-loop iteration); the other waits/calls consume from their own lists
  in `Inputs`.
- Every TUI draw call, browser open and Gmail mutation is recorded as an
  event in an append-only trace.
- The `?` on `gmail.archive`/`gmail.delete` aborts the whole session
  (`RunErr.fatal`); running out of scripted input is the artificial
  `RunErr.noInput`.

`tui.rs`'s `Action` enum also carries a `Summary` variant, but the
`run_interactive` match under analysis (main.rs lines 488-612) has arms for
exactly the eight variants below, so only those are modelled. -/

inductive Action where
  | archive | delete | task | reply | «open» | viewFull | skip | quit
  deriving DecidableEq, Repr

inductive ReplyAction where
  | send | edit | cancel
  deriving DecidableEq, Repr

/-- `Stats` (main.rs lines 631-638). -/
structure Stats where
  archived : Nat := 0
  deleted : Nat := 0
  tasks_created : Nat := 0
  skipped : Nat := 0
  replied : Nat := 0
  deriving DecidableEq, Repr

/-- `Stats::total` (main.rs lines 641-643). -/
def Stats.total (s : Stats) : Nat :=
  s.archived + s.deleted + s.tasks_created + s.skipped + s.replied

deriving instance DecidableEq for Except

/-- Scripted outcomes of the controller's collaborators other than
`wait_for_action`. -/
structure Inputs where
  replies : List ReplyAction := []
  confirms : List Bool := []
  drafts : List (Except String String) := []
  analyses : List (Except String Unit) := []
  archives : List (Except String Unit) := []
  deletes : List (Except String Unit) := []
  sends : List (Except String Unit) := []
  deriving DecidableEq, Repr

/-- Observable events of one session, in order. -/
inductive Ev where
  | drawEmail
  | drawMsg : String → Bool → Ev
  | drawTaskInput : Ev
  | drawReplyDraft : Ev
  | drawFullEmail : Ev
  | drawSummary : Ev
  | waitAction : Ev
  | waitReplyAction : Ev
  | waitConfirm : Ev
  | waitKey : Ev
  | openUrl : String → Ev
  | archiveCall : String → Ev
  | deleteCall : String → Ev
  | sendCall : String → Ev
  | taskAdd : String → Ev
  deriving DecidableEq, Repr

inductive RunErr where
  | fatal : String → RunErr
  | noInput : RunErr
  deriving DecidableEq, Repr

/-- Exit mode of the per-email inner loop. -/
inductive LoopExit where
  | advance | quitSession
  deriving DecidableEq, Repr

/-- One email's `loop { match tui.wait_for_action()? { ... } }`
(main.rs lines 485-614).  The first argument is the remaining
`wait_for_action` script; each iteration consumes exactly one entry. -/
def processEmail (email : Email) (analysis : Option String) :
    List Action → Inputs → Stats → List Ev →
      Except RunErr (LoopExit × List Action × Inputs × Stats × List Ev)
  | [], _, _, _ => .error .noInput
  | a :: rest, inp, stats, tr =>
    let tr := tr ++ [.waitAction]
    match a with
    | .archive =>
      match inp.archives with
      | [] => .error .noInput
      | r :: more =>
        let inp := { inp with archives := more }
        let tr := tr ++ [.archiveCall email.id]
        match r with
        | .ok _ =>
          .ok (.advance, rest, inp, { stats with archived := stats.archived + 1 },
            tr ++ [.drawMsg "✅ Archived" false])
        | .error e => .error (.fatal e)
    | .delete =>
      match inp.deletes with
      | [] => .error .noInput
      | r :: more =>
        let inp := { inp with deletes := more }
        let tr := tr ++ [.deleteCall email.id]
        match r with
        | .ok _ =>
          .ok (.advance, rest, inp, { stats with deleted := stats.deleted + 1 },
            tr ++ [.drawMsg "🗑️ Deleted" false])
        | .error e => .error (.fatal e)
    | .task =>
      let title := analysis.getD email.subject
      let tr := tr ++ [.drawTaskInput, .waitConfirm]
      match inp.confirms with
      | [] => .error .noInput
      | c :: more =>
        let inp := { inp with confirms := more }
        if c then
          let tr := tr ++ [.taskAdd title]
          match inp.archives with
          | [] => .error .noInput
          | r :: moreA =>
            let inp := { inp with archives := moreA }
            let tr := tr ++ [.archiveCall email.id]
            match r with
            | .ok _ =>
              .ok (.advance, rest, inp,
                { stats with tasks_created := stats.tasks_created + 1 },
                tr ++ [.drawMsg "📝 Task created & email archived" false])
            | .error e => .error (.fatal e)
        else .ok (.advance, rest, inp, stats, tr)
    | .reply =>
      let tr := tr ++ [.drawMsg "🤖 Generating reply draft..." false]
      match inp.drafts with
      | [] => .error .noInput
      | d :: moreD =>
        let inp := { inp with drafts := moreD }
        match d with
        | .ok _ =>
          let tr := tr ++ [.drawReplyDraft, .waitReplyAction]
          match inp.replies with
          | [] => .error .noInput
          | ra :: moreR =>
            let inp := { inp with replies := moreR }
            match ra with
            | .send =>
              let tr := tr ++ [.drawMsg "📤 Sending..." false]
              match inp.sends with
              | [] => .error .noInput
              | s :: moreS =>
                let inp := { inp with sends := moreS }
                let tr := tr ++ [.sendCall email.id]
                match s with
                | .ok _ =>
                  match inp.archives with
                  | [] => .error .noInput
                  | r :: moreA =>
                    let inp := { inp with archives := moreA }
                    let tr := tr ++ [.archiveCall email.id]
                    match r with
                    | .ok _ =>
                      .ok (.advance, rest, inp,
                        { stats with replied := stats.replied + 1 },
                        tr ++ [.drawMsg "✅ Reply sent & archived" false])
                    | .error e => .error (.fatal e)
                | .error e =>
                  processEmail email analysis rest inp stats
                    (tr ++ [.drawMsg ("❌ Failed to send: " ++ e) true])
            | .edit =>
              .ok (.advance, rest, inp, stats,
                tr ++ [.openUrl ("https://mail.google.com/mail/u/0/#inbox/" ++ email.id),
                  .drawMsg "📧 Opened in browser for editing" false])
            | .cancel =>
              processEmail email analysis rest inp stats (tr ++ [.drawEmail])
        | .error e =>
          processEmail email analysis rest inp stats
            (tr ++ [.drawMsg ("❌ Failed to generate draft: " ++ e) true, .drawEmail])
    | .«open» =>
      processEmail email analysis rest inp stats
        (tr ++ [.openUrl ("https://mail.google.com/mail/u/0/#inbox/" ++ email.id),
          .drawMsg "🌐 Opened in browser" false])
    | .viewFull =>
      processEmail email analysis rest inp stats
        (tr ++ [.drawFullEmail, .waitKey, .drawEmail])
    | .skip =>
      .ok (.advance, rest, inp, { stats with skipped := stats.skipped + 1 }, tr)
    | .quit =>
      .ok (.quitSession, rest, inp, stats, tr ++ [.drawSummary, .waitKey])

/-- The `for (idx, email) in emails.iter().enumerate()` loop of
`run_interactive` (main.rs lines 463-628), starting after the batch has been
fetched.  Per email: draw, best-effort analysis (a failure draws a transient
error and proceeds with `None`), draw again, then the inner action loop.  The
analysis result carried forward is `suggested_action`-as-title material; the
analysis script entry only decides success/failure here, with `titles` giving
the `suggested_action` of a successful analysis. -/
def runEmails (titles : Email → Option String) :
    List Email → List Action → Inputs → Stats → List Ev →
      Except RunErr (Stats × List Ev)
  | [], _, _, stats, tr => .ok (stats, tr ++ [.drawSummary, .waitKey])
  | email :: more, actions, inp, stats, tr =>
    let tr := tr ++ [.drawEmail]
    match inp.analyses with
    | [] => .error .noInput
    | a :: moreAn =>
      let inp := { inp with analyses := moreAn }
      let (analysis, tr) : Option String × List Ev :=
        match a with
        | .ok _ => (titles email, tr)
        | .error e => (none, tr ++ [.drawMsg ("AI analysis failed: " ++ e) true])
      let tr := tr ++ [.drawEmail]
      match processEmail email analysis actions inp stats tr with
      | .error err => .error err
      | .ok (.advance, actions', inp', stats', tr') =>
        runEmails titles more actions' inp' stats' tr'
      | .ok (.quitSession, _, _, stats', tr') => .ok (stats', tr')

/-- A minimal concrete email for scenario runs. -/
def mkEmail (i : String) : Email :=
  ⟨i, "th" ++ i, "Subject " ++ i, "a@b", "c@d", 0, "snip" ++ i,
    none, none, [], [], true⟩

/-- C8: a session over three emails in which the user archives the first,
deletes the second and skips the third (all mutations succeeding) ends with
archived=1, deleted=1, skipped=1, tasks_created=0, replied=0, total=3. -/
theorem stats_archive_delete_skip :
    ((runEmails (fun _ => none)
        [mkEmail "1", mkEmail "2", mkEmail "3"]
        [Action.archive, Action.delete, Action.skip]
        { analyses := [.ok (), .ok (), .ok ()], archives := [.ok ()],
          deletes := [.ok ()] }
        {} []).map Prod.fst
      = .ok { archived := 1, deleted := 1, skipped := 1 }) ∧
      Stats.total { archived := 1, deleted := 1, skipped := 1 } = 3 ∧
      ({ archived := 1, deleted := 1, skipped := 1 } : Stats).tasks_created = 0 ∧
      ({ archived := 1, deleted := 1, skipped := 1 } : Stats).replied = 0 := by
  refine ⟨rfl, rfl, rfl, rfl⟩

/-- C4 counterexample: the claim says a failed send returns the user to the
`ReplyFlow` draft screen, to retry sending or cancel from there.  In this run
only ONE reply-flow input is scripted; after the send fails, the session
nevertheless continues and finishes by consuming a TOP-LEVEL action (`skip`):
the event after the failure message is `waitAction`, not `waitReplyAction`,
and `drawReplyDraft` occurs exactly once.  (As the claim also says: no
archive call occurs and replied stays 0.) -/
theorem reply_send_failure_no_replyflow_return :
    runEmails (fun _ => none) [mkEmail "x"]
        [Action.reply, Action.skip]
        { replies := [ReplyAction.send], drafts := [.ok "draft"],
          analyses := [.ok ()], sends := [.error "boom"] }
        {} [] =
      .ok ({ skipped := 1 },
        [.drawEmail, .drawEmail, .waitAction,
          .drawMsg "🤖 Generating reply draft..." false,
          .drawReplyDraft, .waitReplyAction,
          .drawMsg "📤 Sending..." false, .sendCall "x",
          .drawMsg "❌ Failed to send: boom" true,
          .waitAction, .drawSummary, .waitKey]) := by
  rfl

/-- C4 (amended): when the user chooses Send in the reply sub-flow and the
send fails, the controller shows a transient error and returns to the
top-level action prompt (`wait_for_action`) for the SAME email — it does not
advance, it performs no archive call, and the statistics (in particular the
replied counter) are unchanged; the user may re-enter the reply flow or
abandon the email from there. -/
theorem reply_send_failure_stays_on_email (email : Email)
    (analysis : Option String) (rest : List Action) (inp : Inputs)
    (stats : Stats) (tr : List Ev) (draft e : String)
    (moreD : List (Except String String)) (moreR : List ReplyAction)
    (moreS : List (Except String Unit))
    (hd : inp.drafts = .ok draft :: moreD)
    (hr : inp.replies = .send :: moreR)
    (hs : inp.sends = .error e :: moreS) :
    processEmail email analysis (Action.reply :: rest) inp stats tr =
      processEmail email analysis rest
        { inp with drafts := moreD, replies := moreR, sends := moreS } stats
        (tr ++ [.waitAction, .drawMsg "🤖 Generating reply draft..." false,
          .drawReplyDraft, .waitReplyAction, .drawMsg "📤 Sending..." false,
          .sendCall email.id, .drawMsg ("❌ Failed to send: " ++ e) true]) ∧
      (∀ i, Ev.archiveCall i ∉
        ([.waitAction, .drawMsg "🤖 Generating reply draft..." false,
          .drawReplyDraft, .waitReplyAction, .drawMsg "📤 Sending..." false,
          .sendCall email.id,
          .drawMsg ("❌ Failed to send: " ++ e) true] : List Ev)) := by
  constructor
  · conv_lhs => rw [processEmail]
    simp only [hd, hr, hs]
    simp [List.append_assoc]
  · intro i
    simp

/-- Witness for `reply_send_failure_stays_on_email` at a concrete email,
draft and error. -/
theorem reply_send_failure_stays_on_email_witness :
    processEmail (mkEmail "w") none (Action.reply :: [Action.skip])
        ⟨[ReplyAction.send], [], [Except.ok "d"], [], [], [],
          [Except.error "err"]⟩ {} [] =
      processEmail (mkEmail "w") none [Action.skip]
        ⟨[], [], [], [], [], [], []⟩ {}
        ([.waitAction, .drawMsg "🤖 Generating reply draft..." false,
          .drawReplyDraft, .waitReplyAction, .drawMsg "📤 Sending..." false,
          .sendCall (mkEmail "w").id,
          .drawMsg ("❌ Failed to send: " ++ "err") true]) ∧
      (∀ i, Ev.archiveCall i ∉
        ([.waitAction, .drawMsg "🤖 Generating reply draft..." false,
          .drawReplyDraft, .waitReplyAction, .drawMsg "📤 Sending..." false,
          .sendCall (mkEmail "w").id,
          .drawMsg ("❌ Failed to send: " ++ "err") true] : List Ev)) :=
  reply_send_failure_stays_on_email (mkEmail "w") none [Action.skip]
    ⟨[ReplyAction.send], [], [Except.ok "d"], [], [], [],
      [Except.error "err"]⟩ {} [] "d" "err" [] [] [] rfl rfl rfl

end Clinbox
